import Mathlib

set_option maxRecDepth 400000

/-!
Verification model of the session/stream engine of the B2B cloth-trading
assistant (the `Chat` component).  Every definition below is a shallow
embedding of a function of the source file; stateful React code is modelled
by explicit state passing.  Reads of React state variables inside one
`handleSendMessage` invocation are modelled by the values captured when the
handler was invoked (JavaScript closures capture the render-time constants,
so `setX` calls made during the handler are not visible to later reads in
the same handler — this is exact JavaScript semantics, not a simplification).
`JSON.parse` (a platform builtin) is modelled by an executable recursive
descent parser `jsonParse`; JavaScript numbers are modelled exactly as
rationals (the engine never computes with parsed numbers, so the
float/rational difference is unobservable here).  Timestamps are integer
milliseconds; `Date.now()` becomes an explicit clock argument.
-/

/-- Whitespace as removed by `String.prototype.trim` (ASCII subset; the
source never feeds non-ASCII whitespace to `trim`). -/
def isWsC (c : Char) : Bool :=
  c = ' ' || c = '\t' || c = '\n' || c = '\r' || c = '\x0b' || c = '\x0c'

/-- Model of `line.trim()`. -/
def trimL (s : List Char) : List Char :=
  ((s.dropWhile isWsC).reverse.dropWhile isWsC).reverse

/-- Model of `chunk.split('\n')` (JavaScript `String.prototype.split` with a
single-character separator): always returns at least one piece, and a
trailing separator yields a trailing empty piece. -/
def splitNl : List Char → List (List Char)
  | [] => [[]]
  | c :: cs =>
    if c = '\n' then [] :: splitNl cs
    else
      match splitNl cs with
      | [] => [[c]]
      | h :: t => (c :: h) :: t

/-- Model of `s.startsWith(pat)`: `isPre pat s` is true iff `pat` is a
prefix of `s`. -/
def isPre : List Char → List Char → Bool
  | [], _ => true
  | _ :: _, [] => false
  | p :: ps, c :: cs => p == c && isPre ps cs

/-- Model of `s.includes(pat)` (substring occurrence). -/
def containsSub : List Char → List Char → Bool
  | [], pat => pat.isEmpty
  | c :: cs, pat => isPre pat (c :: cs) || containsSub cs pat

/-- Model of `s.toLowerCase()` (ASCII; all search keywords in the source are
ASCII). -/
def lowerL (s : List Char) : List Char := s.map Char.toLower

/-- JSON values as produced by `JSON.parse`.  Object fields keep their
textual order; duplicate keys are resolved by `Jget` (last wins, as in
JavaScript). -/
inductive Json where
  | null : Json
  | bool (b : Bool) : Json
  | num (q : ℚ) : Json
  | str (s : List Char) : Json
  | arr (l : List Json) : Json
  | obj (l : List (List Char × Json)) : Json

/-- JavaScript property lookup on a parsed JSON value: `none` models
`undefined` (missing field or non-object receiver); duplicate keys follow
`JSON.parse` (the last occurrence wins). -/
def lookupLast : List (List Char × Json) → List Char → Option Json
  | [], _ => none
  | (k, v) :: rest, key =>
    match lookupLast rest key with
    | some r => some r
    | none => if k == key then some v else none

def Jget : Json → List Char → Option Json
  | Json.obj fs, k => lookupLast fs k
  | _, _ => none

/-- JavaScript truthiness of a parsed JSON value. -/
def truthy : Json → Bool
  | Json.null => false
  | Json.bool b => b
  | Json.num q => if q = 0 then false else true
  | Json.str s => !s.isEmpty
  | Json.arr _ => true
  | Json.obj _ => true

/-- Truthiness of a possibly-`undefined` value. -/
def truthyO : Option Json → Bool
  | none => false
  | some j => truthy j

/-- Decimal digit value. -/
def digitV (c : Char) : Option Nat :=
  if '0' ≤ c ∧ c ≤ '9' then some (c.toNat - 48) else none

/-- Hexadecimal digit value (for `\uXXXX` escapes). -/
def hexV (c : Char) : Option Nat :=
  if '0' ≤ c ∧ c ≤ '9' then some (c.toNat - 48)
  else if 'a' ≤ c ∧ c ≤ 'f' then some (c.toNat - 87)
  else if 'A' ≤ c ∧ c ≤ 'F' then some (c.toNat - 55)
  else none

/-- Take a maximal run of decimal digits. -/
def takeDigits : List Char → List Nat × List Char
  | [] => ([], [])
  | c :: cs =>
    match digitV c with
    | some d =>
      match takeDigits cs with
      | (ds, r) => (d :: ds, r)
    | none => ([], c :: cs)

def natOfDs (ds : List Nat) : Nat := ds.foldl (fun a d => a * 10 + d) 0

/-- JSON string-escape translation. -/
def escC (c : Char) : Option Char :=
  if c = '"' then some '"'
  else if c = '\\' then some '\\'
  else if c = '/' then some '/'
  else if c = 'b' then some '\x08'
  else if c = 'f' then some '\x0c'
  else if c = 'n' then some '\n'
  else if c = 'r' then some '\r'
  else if c = 't' then some '\t'
  else none

/-- Parse the body of a JSON string (the opening quote already consumed),
returning the decoded characters and the rest of the input. -/
def parseStrB : List Char → Option (List Char × List Char)
  | [] => none
  | '"' :: r => some ([], r)
  | '\\' :: 'u' :: a :: b :: c :: d :: r =>
    match hexV a, hexV b, hexV c, hexV d with
    | some x, some y, some z, some w =>
      match parseStrB r with
      | some (s, r2) => some (Char.ofNat (((x * 16 + y) * 16 + z) * 16 + w) :: s, r2)
      | none => none
    | _, _, _, _ => none
  | '\\' :: e :: r =>
    match escC e with
    | some c =>
      match parseStrB r with
      | some (s, r2) => some (c :: s, r2)
      | none => none
    | none => none
  | c :: r =>
    match parseStrB r with
    | some (s, r2) => some (c :: s, r2)
    | none => none

/-- Parse an unsigned JSON number (digits, optional fraction, optional
exponent) into an exact rational. -/
def parseNumCore (cs : List Char) : Option (ℚ × List Char) :=
  match takeDigits cs with
  | ([], _) => none
  | (ds, r1) =>
    let base : ℚ := (natOfDs ds : ℚ)
    let step2 : Option (ℚ × List Char) :=
      match r1 with
      | '.' :: r =>
        match takeDigits r with
        | ([], _) => none
        | (fs, r2) => some (base + (natOfDs fs : ℚ) / ((10 : ℚ) ^ fs.length), r2)
      | _ => some (base, r1)
    match step2 with
    | none => none
    | some (v, r2) =>
      match r2 with
      | 'e' :: r3 =>
        match r3 with
        | '+' :: r4 =>
          match takeDigits r4 with
          | ([], _) => none
          | (es, r5) => some (v * (10 : ℚ) ^ ((natOfDs es : ℤ)), r5)
        | '-' :: r4 =>
          match takeDigits r4 with
          | ([], _) => none
          | (es, r5) => some (v * (10 : ℚ) ^ (-(natOfDs es : ℤ)), r5)
        | _ =>
          match takeDigits r3 with
          | ([], _) => none
          | (es, r5) => some (v * (10 : ℚ) ^ ((natOfDs es : ℤ)), r5)
      | 'E' :: r3 =>
        match r3 with
        | '+' :: r4 =>
          match takeDigits r4 with
          | ([], _) => none
          | (es, r5) => some (v * (10 : ℚ) ^ ((natOfDs es : ℤ)), r5)
        | '-' :: r4 =>
          match takeDigits r4 with
          | ([], _) => none
          | (es, r5) => some (v * (10 : ℚ) ^ (-(natOfDs es : ℤ)), r5)
        | _ =>
          match takeDigits r3 with
          | ([], _) => none
          | (es, r5) => some (v * (10 : ℚ) ^ ((natOfDs es : ℤ)), r5)
      | _ => some (v, r2)

/-- Parse a JSON number with optional leading minus. -/
def parseNum (cs : List Char) : Option (Json × List Char) :=
  match cs with
  | '-' :: r =>
    match parseNumCore r with
    | some (q, rest) => some (Json.num (-q), rest)
    | none => none
  | _ =>
    match parseNumCore cs with
    | some (q, rest) => some (Json.num q, rest)
    | none => none

def skipWs : List Char → List Char
  | [] => []
  | c :: cs => if isWsC c then skipWs cs else c :: cs

/-- Current parsing task of the JSON parser: a value, the items of an array
(directly after the opening bracket), the items of an array starting at a
value, the members of an object (directly after the opening brace), or the
members of an object starting at a key. -/
inductive PTask where
  | val : PTask
  | arrItems : PTask
  | arrVal : PTask
  | objItems : PTask
  | objVal : PTask

/-- Intermediate output of the JSON parser. -/
inductive POut where
  | pv (j : Json) : POut
  | parr (l : List Json) : POut
  | pobj (l : List (List Char × Json)) : POut

/-- Fuel-based recursive-descent JSON parser (single function so that the
recursion is structural on the fuel and evaluates inside the kernel). -/
def parseF : Nat → PTask → List Char → Option (POut × List Char)
  | 0, _, _ => none
  | Nat.succ f, PTask.val, cs =>
    match skipWs cs with
    | [] => none
    | c :: rest =>
      if c = '"' then
        match parseStrB rest with
        | some (s, r) => some (POut.pv (Json.str s), r)
        | none => none
      else if c = '\x7b' then
        match parseF f PTask.objItems rest with
        | some (POut.pobj l, r) => some (POut.pv (Json.obj l), r)
        | _ => none
      else if c = '[' then
        match parseF f PTask.arrItems rest with
        | some (POut.parr l, r) => some (POut.pv (Json.arr l), r)
        | _ => none
      else if c = 't' then
        match rest with
        | 'r' :: 'u' :: 'e' :: r => some (POut.pv (Json.bool true), r)
        | _ => none
      else if c = 'f' then
        match rest with
        | 'a' :: 'l' :: 's' :: 'e' :: r => some (POut.pv (Json.bool false), r)
        | _ => none
      else if c = 'n' then
        match rest with
        | 'u' :: 'l' :: 'l' :: r => some (POut.pv Json.null, r)
        | _ => none
      else
        match parseNum (c :: rest) with
        | some (j, r) => some (POut.pv j, r)
        | none => none
  | Nat.succ f, PTask.arrItems, cs =>
    match skipWs cs with
    | ']' :: r => some (POut.parr [], r)
    | _ => parseF f PTask.arrVal cs
  | Nat.succ f, PTask.arrVal, cs =>
    match parseF f PTask.val cs with
    | some (POut.pv j, r) =>
      (match skipWs r with
       | ',' :: r2 =>
         match parseF f PTask.arrVal r2 with
         | some (POut.parr l, r3) => some (POut.parr (j :: l), r3)
         | _ => none
       | ']' :: r2 => some (POut.parr [j], r2)
       | _ => none)
    | _ => none
  | Nat.succ f, PTask.objItems, cs =>
    match skipWs cs with
    | '\x7d' :: r => some (POut.pobj [], r)
    | _ => parseF f PTask.objVal cs
  | Nat.succ f, PTask.objVal, cs =>
    match skipWs cs with
    | '"' :: rest =>
      (match parseStrB rest with
       | some (k, r) =>
         (match skipWs r with
          | ':' :: r2 =>
            (match parseF f PTask.val r2 with
             | some (POut.pv v, r3) =>
               (match skipWs r3 with
                | ',' :: r4 =>
                  (match parseF f PTask.objVal r4 with
                   | some (POut.pobj l, r5) => some (POut.pobj ((k, v) :: l), r5)
                   | _ => none)
                | '\x7d' :: r4 => some (POut.pobj [(k, v)], r4)
                | _ => none)
             | _ => none)
          | _ => none)
       | none => none)
    | _ => none

/-- Model of `JSON.parse(s)`: parse one value and require only whitespace
after it.  The fuel bound is generous; every parser step consumes input, so
`4 * length + 8` steps always suffice. -/
def jsonParse (cs : List Char) : Option Json :=
  match parseF (4 * cs.length + 8) PTask.val cs with
  | some (POut.pv j, r) => if (skipWs r).isEmpty then some j else none
  | _ => none

/-- The `data: ` field marker tested by `trimmedLine.startsWith('data: ')`. -/
def dataPref : List Char := ['d', 'a', 't', 'a', ':', ' ']

/-- The completion marker tested by
`trimmedLine.startsWith('event: done')`. -/
def doneLit : List Char := ['e', 'v', 'e', 'n', 't', ':', ' ', 'd', 'o', 'n', 'e']

/-- One decoded unit of the streamed response (spec: WireEvent). -/
inductive WireEvent where
  | data (payload : Json) : WireEvent
  | done : WireEvent

/-- The wire event decoded from one raw line, exactly following the line
handling of `processStreamingResponse`: trim, skip empty lines, `data: `
lines whose remainder parses as JSON become `data` events (parse failures
are dropped), lines starting with `event: done` become the completion
event, everything else is dropped. -/
def lineEvent (line : List Char) : Option WireEvent :=
  let t := trimL line
  if t.isEmpty then none
  else if isPre dataPref t then
    match jsonParse (t.drop 6) with
    | some j => some (WireEvent.data j)
    | none => none
  else if isPre doneLit t then some WireEvent.done
  else none

/-- Events decoded from a list of complete lines. -/
def wireEventsOfLines (ls : List (List Char)) : List WireEvent :=
  ls.filterMap lineEvent

/-- Events decoded from a stream of text chunks: the source splits EACH
chunk on `'\n'` separately (`const lines = chunk.split('\n')`) — there is
no carry-over of a partial last line to the next chunk. -/
def streamEvents (chunks : List (List Char)) : List WireEvent :=
  (chunks.map (fun c => wireEventsOfLines (splitNl c))).flatten

/-- Glue a list of complete lines back into raw text, each line followed by
a newline. -/
def renderLines : List (List Char) → List Char
  | [] => []
  | l :: ls => l ++ '\n' :: renderLines ls

/-- `message.role` values. -/
inductive Role where
  | user : Role
  | assistant : Role
  | system : Role
deriving DecidableEq

/-- The `actionMode` state: the source uses `null | 'replay' |
'supplier_response'`; `null` is modelled by `Option.none`. -/
inductive Mode where
  | replay : Mode
  | supplierResponse : Mode
deriving DecidableEq

/-- The `workflowPhase` state: `'initial' | 'awaiting_supplier'`. -/
inductive Phase where
  | initial : Phase
  | awaitingSupplier : Phase
deriving DecidableEq

/-- The `sessionInfo` state object.  Each field holds the JavaScript value
stored there (`none` models `undefined`; `some Json.null` models `null`).
Field names follow the source (`confidence` holds `intent_confidence`). -/
structure SessionInfo where
  id : Option Json
  status : Option Json
  intent : Option Json
  confidence : Option Json

/-- One entry of the `messages` array.  The source also stores a render key
`id` built from `Date.now()` and `Math.random()`; it is nondeterministic and
never read back, so it is outside the model. -/
structure Message where
  role : Role
  content : Json
  timestamp : Int
  step : Option Json
  type : List Char

/-- The React state of the `Chat` component that the engine reads or
writes (global-context actions — toasts, `setWorkflowStatus`,
`setCurrentSession`, `navigate` — are display collaborators and are outside
the model). -/
structure ChatState where
  messages : List Message
  inputMessage : List Char
  isLoading : Bool
  showPostActions : Bool
  actionMode : Option Mode
  workflowPhase : Phase
  sessionInfo : SessionInfo

/-- A callback scheduled with `setTimeout`, to run after the current call
completes.  `doneTimer p` is the completion handler of
`processStreamingResponse`; it captured the closure value `p` of
`workflowPhase` at the render that created the handler.  `showTimer` is the
`setShowPostActions(true)` timer of `loadSessionHistory`. -/
inductive Pend where
  | doneTimer (phase0 : Phase) : Pend
  | showTimer : Pend
deriving DecidableEq

/-- A remote operation issued through `apiService`. -/
inductive Call where
  | start (userInput : List Char) (inputType : List Char) : Call
  | cont (sid : Option Json) (supplierResponse : List Char) : Call
  | replayC (sid : Option Json) (newInput : List Char) : Call

/-- Result of one handler invocation: the committed state, the scheduled
timers (in scheduling order), and the remote calls issued (in order). -/
structure OpResult where
  state : ChatState
  pends : List Pend
  calls : List Call

/-- Outcome of one `fetch`-style request, supplied by the transport
collaborator: either a rejection before any byte arrives, or a response
with its `ok` flag, status, error body text, and streamed chunks (already
character-decoded; the source uses `TextDecoder` in streaming mode, which
handles multi-byte splits at the byte layer). -/
inductive FetchOutcome where
  | reject (msg : List Char) : FetchOutcome
  | response (ok : Bool) (status : Nat) (errText : List Char)
      (chunks : List (List Char)) : FetchOutcome

/-- The `sessionInfo` object built by `processStreamingResponse` when a
`data` event carries a truthy `session_id`. -/
def sessionInfoOfPayload (data : Json) : SessionInfo :=
  { id := Jget data "session_id".data
    status := Jget data "status".data
    intent := Jget data "intent".data
    confidence := Jget data "intent_confidence".data }

/-- `addAssistantMessage(data.message, data.step)`. -/
def mkAssistantMessage (now : Int) (data : Json) : Message :=
  { role := Role.assistant
    content := (Jget data "message".data).getD Json.null
    timestamp := now
    step := Jget data "step".data
    type := "response".data }

/-- The message object built by `addSystemMessage(content, type)`. -/
def mkSystemMessage (now : Int) (content : List Char) (t : List Char) : Message :=
  { role := Role.system
    content := Json.str content
    timestamp := now
    step := none
    type := t }

/-- `addSystemMessage`. -/
def addSystemMessage (now : Int) (content : List Char) (t : List Char)
    (s : ChatState) : ChatState :=
  { s with messages := s.messages ++ [mkSystemMessage now content t] }

/-- Handling of one line inside the chunk loop of
`processStreamingResponse`.  `phase0` is the closure value of
`workflowPhase` captured when the handler was created; `isNew` is the
`isNewWorkflow` argument.  The state is paired with the list of timers
scheduled so far. -/
def procLine (isNew : Bool) (phase0 : Phase) (now : Int)
    (sp : ChatState × List Pend) (line : List Char) : ChatState × List Pend :=
  let t := trimL line
  if t.isEmpty then sp
  else if isPre dataPref t then
    match jsonParse (t.drop 6) with
    | none => sp
    | some data =>
      let s1 :=
        if truthyO (Jget data "message".data) then
          { sp.1 with messages := sp.1.messages ++ [mkAssistantMessage now data] }
        else sp.1
      let s2 :=
        if truthyO (Jget data "session_id".data) && isNew then
          { s1 with sessionInfo := sessionInfoOfPayload data }
        else s1
      (s2, sp.2)
  else if isPre doneLit t then (sp.1, sp.2 ++ [Pend.doneTimer phase0])
  else sp

/-- The `for (const line of lines)` loop over one chunk's lines. -/
def procLines (isNew : Bool) (phase0 : Phase) (now : Int)
    (ls : List (List Char)) (sp : ChatState × List Pend) : ChatState × List Pend :=
  ls.foldl (procLine isNew phase0 now) sp

/-- `processStreamingResponse`: read chunks until the stream ends, split
each chunk on `'\n'` and handle its lines.  Returns the updated state and
the `setTimeout` completion handlers scheduled during the stream. -/
def processStreamingResponse (isNew : Bool) (phase0 : Phase) (now : Int)
    (chunks : List (List Char)) (s : ChatState) : ChatState × List Pend :=
  chunks.foldl (fun sp c => procLines isNew phase0 now (splitNl c) sp) (s, [])

/-- The `error.message` text `HTTP ${status}: ${errorText}` thrown on a
non-ok response. -/
def httpErrText (status : Nat) (errText : List Char) : List Char :=
  "HTTP ".data ++ (Nat.repr status).data ++ ": ".data ++ errText

/-- True when the request rejects before any byte arrives or the response
has a non-success status. -/
def isTransportFailure : FetchOutcome → Bool
  | FetchOutcome.reject _ => true
  | FetchOutcome.response ok _ _ _ => !ok

/-- `startNewWorkflow(userInput)`.  `phase0` is the closure value of
`workflowPhase` at invocation. -/
def startNewWorkflow (now : Int) (phase0 : Phase) (userInput : List Char)
    (o : FetchOutcome) (s : ChatState) : OpResult :=
  match o with
  | FetchOutcome.reject m =>
    { state := addSystemMessage now ("Failed to start workflow: ".data ++ m) "error".data s
      pends := []
      calls := [Call.start userInput "quote".data] }
  | FetchOutcome.response ok status errText chunks =>
    if ok then
      let r := processStreamingResponse true phase0 now chunks s
      { state := r.1, pends := r.2, calls := [Call.start userInput "quote".data] }
    else
      { state := addSystemMessage now
          ("Failed to start workflow: ".data ++ httpErrText status errText) "error".data s
        pends := []
        calls := [Call.start userInput "quote".data] }

/-- `continueWorkflow(sessionId, supplierResponse)`. -/
def continueWorkflow (now : Int) (phase0 : Phase) (sid : Option Json)
    (supplierResponse : List Char) (o : FetchOutcome) (s : ChatState) : OpResult :=
  match o with
  | FetchOutcome.reject m =>
    { state := addSystemMessage now ("Failed to continue workflow: ".data ++ m) "error".data s
      pends := []
      calls := [Call.cont sid supplierResponse] }
  | FetchOutcome.response ok status errText chunks =>
    if ok then
      let r := processStreamingResponse false phase0 now chunks s
      { state := r.1, pends := r.2, calls := [Call.cont sid supplierResponse] }
    else
      { state := addSystemMessage now
          ("Failed to continue workflow: ".data ++ httpErrText status errText) "error".data s
        pends := []
        calls := [Call.cont sid supplierResponse] }

/-- `replayWorkflow(newInput)`: on a successful response it first sets
`workflowPhase` to `awaiting_supplier` and then consumes the stream.  Note
that the stream handler still sees the OLD phase `phase0` through its
closure. -/
def replayWorkflow (now : Int) (phase0 : Phase) (sid : Option Json)
    (newInput : List Char) (o : FetchOutcome) (s : ChatState) : OpResult :=
  match o with
  | FetchOutcome.reject m =>
    { state := addSystemMessage now ("Failed to replay workflow: ".data ++ m) "error".data s
      pends := []
      calls := [Call.replayC sid newInput] }
  | FetchOutcome.response ok status errText chunks =>
    if ok then
      let s1 := { s with workflowPhase := Phase.awaitingSupplier }
      let r := processStreamingResponse false phase0 now chunks s1
      { state := r.1, pends := r.2, calls := [Call.replayC sid newInput] }
    else
      { state := addSystemMessage now
          ("Failed to replay workflow: ".data ++ httpErrText status errText) "error".data s
        pends := []
        calls := [Call.replayC sid newInput] }

/-- The user message object built at the top of `handleSendMessage`
(`type: actionMode || 'user_input'`). -/
def mkUserMessage (now : Int) (content : List Char) (am : Option Mode) : Message :=
  { role := Role.user
    content := Json.str content
    timestamp := now
    step := none
    type :=
      match am with
      | some Mode.replay => "replay".data
      | some Mode.supplierResponse => "supplier_response".data
      | none => "user_input".data }

/-- The state at the moment the remote operation is invoked: the user
message has been appended, the input cleared, `isLoading` set and the
post-actions panel hidden — but `actionMode` has NOT been touched. -/
def stateAtDispatch (now : Int) (s : ChatState) : ChatState :=
  { s with
    messages := s.messages ++ [mkUserMessage now s.inputMessage s.actionMode]
    inputMessage := []
    isLoading := true
    showPostActions := false }

/-- `sessionInfo.id === 'new'`. -/
def isNewId : Option Json → Bool
  | some (Json.str s) => s == "new".data
  | _ => false

/-- `handleSendMessage`: guard, user-message append, operation dispatch on
the invocation-time state, then the `finally` block
(`setIsLoading(false); setActionMode(null)`).  All reads of
`actionMode` / `workflowPhase` / `sessionInfo` / `inputMessage` inside the
call use the values `s0` captured at invocation (JavaScript closure
semantics).  The inner operations catch their own transport errors, so the
outer `catch` is unreachable for the failures modelled here. -/
def handleSendMessage (now : Int) (o : FetchOutcome) (s0 : ChatState) : OpResult :=
  if (trimL s0.inputMessage).isEmpty || s0.isLoading then
    { state := s0, pends := [], calls := [] }
  else
    let s1 := stateAtDispatch now s0
    let r :=
      if s0.actionMode = some Mode.replay then
        replayWorkflow now s0.workflowPhase s0.sessionInfo.id s0.inputMessage o s1
      else if s0.actionMode = some Mode.supplierResponse ∨
          s0.workflowPhase = Phase.awaitingSupplier then
        continueWorkflow now s0.workflowPhase s0.sessionInfo.id s0.inputMessage o s1
      else if isNewId s0.sessionInfo.id then
        startNewWorkflow now s0.workflowPhase s0.inputMessage o s1
      else
        continueWorkflow now s0.workflowPhase s0.sessionInfo.id s0.inputMessage o s1
    { state := { r.state with isLoading := false, actionMode := none }
      pends := r.pends
      calls := r.calls }

/-- Run one scheduled `setTimeout` callback.  The completion handler tests
the CAPTURED phase `p0`, not the current one. -/
def applyPend (s : ChatState) : Pend → ChatState
  | Pend.doneTimer p0 =>
    if p0 = Phase.awaitingSupplier then { s with actionMode := some Mode.supplierResponse }
    else { s with showPostActions := true }
  | Pend.showTimer => { s with showPostActions := true }

/-- Run all scheduled callbacks, in scheduling order, after the call has
completed (the timers fire after the `finally` block). -/
def runPends (s : ChatState) (ps : List Pend) : ChatState :=
  ps.foldl applyPend s

/-- One record of `history.messages_log` (spec: a persisted `{step,
message}` record; the message text is a string). -/
structure HistRec where
  step : Option Json
  message : List Char

/-- `history.messages_log.map((msg, index) => ...)`: one hydrated timeline
entry per record.  `clock i` is the value `Date.now()` returns during
iteration `i` (the source calls `Date.now()` once per element); `total` is
`history.messages_log.length`; the first argument of the recursion is the
current index. -/
def histMsgs (clock : Nat → Int) (total : Nat) : Nat → List HistRec → List Message
  | _, [] => []
  | i, r :: rest =>
    { role := Role.assistant
      content := Json.str r.message
      timestamp := clock i - ((total : Int) - (i : Int)) * 60000
      step := r.step
      type := "response".data } :: histMsgs clock total (i + 1) rest

/-- The full hydrated message list of `loadSessionHistory`. -/
def loadHistMsgs (clock : Nat → Int) (log : List HistRec) : List Message :=
  histMsgs clock log.length 0 log

/-- The keyword test applied to the last hydrated message:
`content.toLowerCase().includes('supplier' | 'quote' | 'negotiat')`. -/
def keywordHit (content : List Char) : Bool :=
  containsSub (lowerL content) "supplier".data ||
  containsSub (lowerL content) "quote".data ||
  containsSub (lowerL content) "negotiat".data

/-- The keyword test on a message object (the content is a string for every
hydrated message). -/
def lastContentHit (m : Message) : Bool :=
  match m.content with
  | Json.str c => keywordHit c
  | _ => false

/-- The payload of `apiService.getWorkflowState(sessionId)` (success case;
a failed fetch is caught and leaves the state unchanged). -/
structure WorkflowStateResp where
  status : Option Json
  intent : Option Json
  confidence : Option Json

/-- `loadSessionHistory` (success path): hydrate the history into the
timeline, infer the phase from the last hydrated message's keywords,
schedule the post-actions timer, then set `sessionInfo` from the fetched
workflow state; the `finally` clears `isLoading`. -/
def loadSessionHistory (clock : Nat → Int) (sid : List Char)
    (log : List HistRec) (st : WorkflowStateResp) (s : ChatState) :
    ChatState × List Pend :=
  let sp1 :=
    if 0 < log.length then
      let hm := loadHistMsgs clock log
      let sA := { s with messages := s.messages ++ hm }
      let sB :=
        match hm.getLast? with
        | some lm =>
          if lastContentHit lm then { sA with workflowPhase := Phase.awaitingSupplier }
          else sA
        | none => sA
      (sB, [Pend.showTimer])
    else (s, ([] : List Pend))
  ({ sp1.1 with
      sessionInfo :=
        { id := some (Json.str sid)
          status := st.status
          intent := st.intent
          confidence := st.confidence }
      isLoading := false }, sp1.2)

/-- The initial component state (`useState` initialisers): the greeting
message, empty input, `id: sessionId || 'new'`, phase `initial`, no action
mode.  `now` is the mount time (`Date.now()`); the greeting timestamp is
`Date.now() - 60000`. -/
def greetingText : List Char :=
  "Hello! I\x27m your textile procurement assistant. I can help you with:\n\n• Getting quotes for fabric purchases\n• Finding suppliers\n• Negotiating terms\n• Generating contracts\n\nWhat would you like to work on today?".data

def initialChat (now : Int) (routeSid : Option (List Char)) : ChatState :=
  { messages :=
      [{ role := Role.assistant
         content := Json.str greetingText
         timestamp := now - 60000
         step := none
         type := "greeting".data }]
    inputMessage := []
    isLoading := false
    showPostActions := false
    actionMode := none
    workflowPhase := Phase.initial
    sessionInfo :=
      { id := some (Json.str
          (match routeSid with
           | some sid => if sid.isEmpty then "new".data else sid
           | none => "new".data))
        status := some (Json.str "active".data)
        intent := some Json.null
        confidence := some Json.null } }

/-! Concrete inputs used by counterexamples and witnesses. -/

/-- The mount state of a fresh chat (`/chat` without a session id). -/
def chatNew : ChatState := initialChat 0 none

/-- First half of a completion-marker line, split mid-line. -/
def c1a : List Char := "event: d".data

/-- Second half of the same completion-marker line. -/
def c1b : List Char := "one\n".data

def d1c : List Char := "\x7b\"session_id\":\"s1\"\x7d".data

def d2c : List Char := "\x7b\"session_id\":\"s2\"\x7d".data

def p1c : Json := Json.obj [("session_id".data, Json.str "s1".data)]

def p2c : Json := Json.obj [("session_id".data, Json.str "s2".data)]

/-- A state with a pending replay request and non-empty input. -/
def s3c : ChatState := { chatNew with actionMode := some Mode.replay, inputMessage := "hi".data }

/-- An existing session about to be replayed from phase `initial`. -/
def s4c : ChatState :=
  { chatNew with
    sessionInfo :=
      { id := some (Json.str "abc123".data)
        status := some (Json.str "active".data)
        intent := some Json.null
        confidence := some Json.null }
    actionMode := some Mode.replay
    inputMessage := "I need silk fabric instead".data }

/-- A successful replay response: one message event, then the completion
marker. -/
def o4c : FetchOutcome :=
  FetchOutcome.response true 200 []
    ["data: \x7b\"message\":\"Replayed with new input\"\x7d\nevent: done\n".data]

def preC : List (List Char) := ["data: \x7b\"message\":\"a\"\x7d".data]

/-- A malformed `data:` line: the remainder is not valid JSON. -/
def badC : List Char := "data: \x7bbroken".data

def xC : List Char := "\x7bbroken".data

def postC : List (List Char) := ["event: done".data]

/-- Two-record history used by the hydration witness. -/
def histC2 : List HistRec := [⟨none, "Searching suppliers...".data⟩, ⟨none, "Found 8 suppliers".data⟩]

/-- One-record history whose message contains the keyword `quote`. -/
def histQ : List HistRec := [⟨none, "Here is your quote".data⟩]

def rQ : HistRec := ⟨none, "Here is your quote".data⟩

def stC : WorkflowStateResp := ⟨none, none, none⟩

/-- Whitespace-only input used by the submission-guard witness. -/
def s9c : ChatState := { chatNew with inputMessage := "   ".data }

/-! Helper lemmas about the decoder. -/

theorem isPre_append (p s : List Char) : isPre p (p ++ s) = true := by
  induction p with
  | nil => rfl
  | cons c cs ih => simp [isPre, ih]

theorem dataPref_drop (x : List Char) : (dataPref ++ x).drop 6 = x := rfl

theorem splitNl_line (l t : List Char) (h : ('\n' : Char) ∉ l) :
    splitNl (l ++ '\n' :: t) = l :: splitNl t := by
  induction l with
  | nil => simp [splitNl]
  | cons c cs ih =>
    have hc : ¬(c = '\n') := fun e => h (e ▸ List.mem_cons_self c cs)
    have h2 : ('\n' : Char) ∉ cs := fun m => h (List.mem_cons_of_mem _ m)
    simp [splitNl, hc, ih h2]

theorem splitNl_renderLines (ls : List (List Char)) (h : ∀ l ∈ ls, ('\n' : Char) ∉ l) :
    splitNl (renderLines ls) = ls ++ [[]] := by
  induction ls with
  | nil => rfl
  | cons l ls ih =>
    have h1 : ('\n' : Char) ∉ l := h l (List.mem_cons_self l ls)
    have h2 : ∀ x ∈ ls, ('\n' : Char) ∉ x := fun x m => h x (List.mem_cons_of_mem _ m)
    simp [renderLines, splitNl_line l _ h1, ih h2]

theorem wireEventsOfLines_append (a b : List (List Char)) :
    wireEventsOfLines (a ++ b) = wireEventsOfLines a ++ wireEventsOfLines b := by
  simp [wireEventsOfLines, List.filterMap_append]

theorem wireEventsOfLines_tail_empty (ls : List (List Char)) :
    wireEventsOfLines (ls ++ [[]]) = wireEventsOfLines ls := by
  rw [wireEventsOfLines_append]
  have h : wireEventsOfLines [[]] = [] := rfl
  simp [h]

theorem wireEventsOfLines_flatten (L : List (List (List Char))) :
    wireEventsOfLines L.flatten = (L.map wireEventsOfLines).flatten := by
  induction L with
  | nil => rfl
  | cons a L ih => simp [List.flatten, wireEventsOfLines_append, ih]

/-- C1 (counterexample): the same raw bytes, delivered once as a single
chunk and once split in the middle of the completion-marker line, decode to
DIFFERENT event sequences: the split delivery loses the completion event,
because each chunk is split on newlines independently and no carry-over
buffer exists. -/
theorem decoder_chunk_invariance_cex :
    c1a ++ c1b = "event: done\n".data ∧
    streamEvents [c1a, c1b] ≠ streamEvents [c1a ++ c1b] := by
  refine ⟨rfl, ?_⟩
  intro h
  have h1 : streamEvents [c1a, c1b] = [] := rfl
  have h2 : streamEvents [c1a ++ c1b] = [WireEvent.done] := rfl
  rw [h1, h2] at h
  exact List.cons_ne_nil WireEvent.done [] h.symm

/-- C1 (amended): chunk-splitting invariance DOES hold for splits aligned
with line boundaries: delivering any grouping of whole `'\n'`-terminated
lines chunk by chunk yields the same event sequence as delivering the whole
text as one chunk. -/
theorem decoder_line_boundary_invariance (groups : List (List (List Char)))
    (h : ∀ l ∈ groups.flatten, ('\n' : Char) ∉ l) :
    streamEvents (groups.map renderLines) = streamEvents [renderLines groups.flatten] := by
  have hr : streamEvents [renderLines groups.flatten] = wireEventsOfLines groups.flatten := by
    simp only [streamEvents, List.map_cons, List.map_nil, List.flatten]
    rw [splitNl_renderLines _ h, wireEventsOfLines_tail_empty]
    simp
  have hl : streamEvents (groups.map renderLines) = (groups.map wireEventsOfLines).flatten := by
    simp only [streamEvents, List.map_map]
    congr 1
    apply List.map_congr_left
    intro g hg
    have hg2 : ∀ l ∈ g, ('\n' : Char) ∉ l := fun l hm => h l (List.mem_flatten.mpr ⟨g, hg, hm⟩)
    simp only [Function.comp]
    rw [splitNl_renderLines _ hg2, wireEventsOfLines_tail_empty]
  rw [hl, hr, wireEventsOfLines_flatten]

/-- C1 (witness for the amended invariance): a two-line stream delivered in
two whole-line chunks decodes as if delivered in one chunk. -/
theorem decoder_line_boundary_invariance_witness :
    streamEvents ([[("data: \x7b\"message\":\"hi\"\x7d".data)], ["event: done".data]].map renderLines) =
      streamEvents [renderLines ([[("data: \x7b\"message\":\"hi\"\x7d".data)], ["event: done".data]].flatten)] :=
  decoder_line_boundary_invariance [[("data: \x7b\"message\":\"hi\"\x7d".data)], ["event: done".data]] (by decide)

/-- C6: a `data:` line whose remainder fails JSON parsing contributes no
event and does not disturb the events of the surrounding lines. -/
theorem decoder_drops_malformed_data_line (pre post : List (List Char)) (bad x : List Char)
    (hb : trimL bad = dataPref ++ x) (hp : jsonParse x = none) :
    wireEventsOfLines (pre ++ bad :: post) = wireEventsOfLines pre ++ wireEventsOfLines post := by
  have hbad : lineEvent bad = none := by
    have h1 : (dataPref ++ x).isEmpty = false := rfl
    simp only [lineEvent, hb, h1, isPre_append, dataPref_drop, hp]
    simp
  simp [wireEventsOfLines, List.filterMap_append, List.filterMap_cons, hbad]

/-- C6 (witness): a concrete stream with one malformed `data:` line among
two well-formed lines decodes to exactly the two well-formed events. -/
theorem decoder_drops_malformed_data_line_witness :
    wireEventsOfLines (preC ++ badC :: postC) = wireEventsOfLines preC ++ wireEventsOfLines postC :=
  decoder_drops_malformed_data_line preC postC badC xC rfl
    (by
      have h : (jsonParse xC).isSome = false := by decide
      cases he : jsonParse xC with
      | none => rfl
      | some v => rw [he] at h; simp at h)

/-- If a line starts with `data: ` it cannot start with `event: done`. -/
theorem isPre_data_not_done (t : List Char) (h : isPre dataPref t = true) :
    isPre doneLit t = false := by
  cases t with
  | nil => simp [isPre, dataPref] at h
  | cons c cs =>
    simp only [dataPref, isPre, Bool.and_eq_true, beq_iff_eq] at h
    rw [← h.1]
    simp [doneLit, isPre]

/-- C7 (amended): a line is treated as the completion marker IF AND ONLY IF
its trimmed form STARTS WITH `event: done` — the source tests
`startsWith('event: done')`, not equality, so lines such as
`event: doneXYZ` also trigger completion handling. -/
theorem done_marker_startsWith_iff (line : List Char) :
    lineEvent line = some WireEvent.done ↔ isPre doneLit (trimL line) = true := by
  rcases ht : trimL line with _ | ⟨c, cs⟩
  · simp [lineEvent, ht, isPre, doneLit]
  · by_cases hd : isPre dataPref (c :: cs) = true
    · have hnd := isPre_data_not_done _ hd
      simp only [lineEvent, ht, List.isEmpty_cons, Bool.false_eq_true, if_false, hd, if_true, hnd]
      cases hj : jsonParse ((c :: cs).drop 6) <;> simp [hj]
    · rw [Bool.not_eq_true] at hd
      by_cases he : isPre doneLit (c :: cs) = true
      · simp [lineEvent, ht, hd, he]
      · rw [Bool.not_eq_true] at he
        simp [lineEvent, ht, hd, he]

/-- C7 (counterexample): the non-literal line `event: doneZ` is decoded as
the completion marker although it is not the literal line `event: done`. -/
theorem done_marker_literal_cex :
    lineEvent "event: doneZ".data = some WireEvent.done ∧
    "event: doneZ".data ≠ "event: done".data :=
  ⟨rfl, by decide⟩

/-- C2 (counterexample): during a Start call whose stream carries two data
events with session ids `s1` then `s2`, the final session id is `s2` — the
second event overwrites the first, refuting the set-once latch. -/
theorem session_id_latch_cex :
    (procLines true Phase.initial 0 [dataPref ++ d1c, dataPref ++ d2c] (chatNew, [])).1.sessionInfo.id
      = some (Json.str "s2".data) ∧
    ¬((procLines true Phase.initial 0 [dataPref ++ d1c, dataPref ++ d2c] (chatNew, [])).1.sessionInfo.id
      = some (Json.str "s1".data)) := by
  refine ⟨rfl, ?_⟩
  intro hcontra
  rw [show (procLines true Phase.initial 0 [dataPref ++ d1c, dataPref ++ d2c] (chatNew, [])).1.sessionInfo.id
        = some (Json.str "s2".data) from rfl] at hcontra
  simp only [Option.some.injEq, Json.str.injEq] at hcontra
  exact absurd hcontra (by decide)

/-- C2 (amended): every `data` event of a Start-call stream that carries a
truthy `session_id` overwrites the whole session info, so after two such
events the session info is the one built from the SECOND payload — the id
switch is last-wins, not once-only. -/
theorem session_id_overwritten_last_wins
    (now : Int) (phase0 : Phase) (d1 d2 : List Char) (p1 p2 : Json)
    (s : ChatState) (pend0 : List Pend)
    (h1 : jsonParse d1 = some p1) (h2 : jsonParse d2 = some p2)
    (t1 : truthyO (Jget p1 "session_id".data) = true)
    (t2 : truthyO (Jget p2 "session_id".data) = true)
    (w1 : trimL (dataPref ++ d1) = dataPref ++ d1)
    (w2 : trimL (dataPref ++ d2) = dataPref ++ d2) :
    (procLines true phase0 now [dataPref ++ d1, dataPref ++ d2] (s, pend0)).1.sessionInfo
      = sessionInfoOfPayload p2 := by
  have e1 : (dataPref ++ d1).isEmpty = false := rfl
  have e2 : (dataPref ++ d2).isEmpty = false := rfl
  simp only [procLines, List.foldl, procLine, w1, w2, e1, e2, isPre_append, dataPref_drop,
    h1, h2, t1, t2, Bool.false_eq_true, if_false, if_true, Bool.and_self, Bool.and_true]

/-- C2 (witness for the amended claim): concrete Start-call stream with
session ids `s1` then `s2`; the final session info is built from the second
payload. -/
theorem session_id_overwritten_last_wins_witness :
    (procLines true Phase.initial 0 [dataPref ++ d1c, dataPref ++ d2c] (chatNew, [])).1.sessionInfo
      = sessionInfoOfPayload p2c :=
  session_id_overwritten_last_wins 0 Phase.initial d1c d2c p1c p2c chatNew []
    rfl rfl rfl rfl rfl rfl

/-- C3 (counterexample): with a pending replay request, the state in which
the remote operation is invoked still has `actionMode = replay` (not
`none`), and it still does after a whole stream chunk has been processed:
the mode is NOT cleared at invocation nor during the call. -/
theorem action_mode_clearing_cex :
    (stateAtDispatch 0 s3c).actionMode = some Mode.replay ∧
    ¬((stateAtDispatch 0 s3c).actionMode = none) ∧
    (processStreamingResponse false Phase.initial 0
        ["data: \x7b\"message\":\"m\"\x7d\n".data] (stateAtDispatch 0 s3c)).1.actionMode
      = some Mode.replay := by
  refine ⟨rfl, ?_, rfl⟩
  rw [show (stateAtDispatch 0 s3c).actionMode = some Mode.replay from rfl]
  simp

/-- C3 (amended): `actionMode` keeps its prior value at the moment the
remote operation is dispatched (the dispatch itself reads it), and it is
cleared to `none` only by the `finally` block after the call completes —
for every prior value and every outcome. -/
theorem action_mode_cleared_only_after_call (now : Int) (o : FetchOutcome) (s0 : ChatState)
    (h : ((trimL s0.inputMessage).isEmpty || s0.isLoading) = false) :
    (stateAtDispatch now s0).actionMode = s0.actionMode ∧
    (handleSendMessage now o s0).state.actionMode = none := by
  refine ⟨rfl, ?_⟩
  simp [handleSendMessage, h]

/-- C3 (witness for the amended claim): a concrete replay-mode state; after
the full call the mode is `none` while at dispatch it was still `replay`. -/
theorem action_mode_cleared_only_after_call_witness :
    (stateAtDispatch 0 s3c).actionMode = s3c.actionMode ∧
    (handleSendMessage 0 (FetchOutcome.reject "Network error".data) s3c).state.actionMode = none :=
  action_mode_cleared_only_after_call 0 (FetchOutcome.reject "Network error".data) s3c (by decide)

/-- C4: replaying from `phase = initial` with a stream that ends in the
completion marker.  The phase IS forced to `awaiting_supplier` before the
stream is consumed, but the completion handler captured the phase value
from BEFORE the replay (`Pend.doneTimer Phase.initial`), so after the
scheduled callback runs the action mode is still `none` (the post-actions
panel is shown instead) — `supplier_response` mode is never entered,
contrary to the claim and to the source's own comments. -/
theorem replay_done_handler_stale_phase :
    (handleSendMessage 0 o4c s4c).state.workflowPhase = Phase.awaitingSupplier ∧
    (handleSendMessage 0 o4c s4c).pends = [Pend.doneTimer Phase.initial] ∧
    (runPends (handleSendMessage 0 o4c s4c).state (handleSendMessage 0 o4c s4c).pends).actionMode
      = none ∧
    (runPends (handleSendMessage 0 o4c s4c).state (handleSendMessage 0 o4c s4c).pends).showPostActions
      = true :=
  ⟨rfl, rfl, rfl, rfl⟩

/-- C5: a Continue call whose request rejects before any byte arrives, or
whose response has a non-success status, appends exactly one system-role
error entry to the timeline, leaves the session info (and the rest of the
state) untouched, schedules nothing and issues the single call exactly
once. -/
theorem continue_transport_failure_atomic (now : Int) (phase0 : Phase) (sid : Option Json)
    (resp : List Char) (o : FetchOutcome) (s : ChatState)
    (h : isTransportFailure o = true) :
    ∃ m : Message,
      (continueWorkflow now phase0 sid resp o s).state = { s with messages := s.messages ++ [m] } ∧
      m.role = Role.system ∧
      m.type = "error".data ∧
      (continueWorkflow now phase0 sid resp o s).state.sessionInfo = s.sessionInfo ∧
      (continueWorkflow now phase0 sid resp o s).state.actionMode = s.actionMode ∧
      (continueWorkflow now phase0 sid resp o s).state.workflowPhase = s.workflowPhase ∧
      (continueWorkflow now phase0 sid resp o s).pends = [] ∧
      (continueWorkflow now phase0 sid resp o s).calls = [Call.cont sid resp] := by
  cases o with
  | reject m =>
    exact ⟨mkSystemMessage now ("Failed to continue workflow: ".data ++ m) "error".data,
      rfl, rfl, rfl, rfl, rfl, rfl, rfl, rfl⟩
  | response ok status errText chunks =>
    have hok : ok = false := by
      simpa [isTransportFailure] using h
    subst hok
    exact ⟨mkSystemMessage now
        ("Failed to continue workflow: ".data ++ httpErrText status errText) "error".data,
      rfl, rfl, rfl, rfl, rfl, rfl, rfl, rfl⟩

/-- C5 (witness): a concrete rejected Continue call. -/
theorem continue_transport_failure_atomic_witness :
    ∃ m : Message,
      (continueWorkflow 0 Phase.initial (some (Json.str "abc123".data)) "x".data
          (FetchOutcome.reject "Network error".data) chatNew).state
        = { chatNew with messages := chatNew.messages ++ [m] } ∧
      m.role = Role.system ∧
      m.type = "error".data ∧
      (continueWorkflow 0 Phase.initial (some (Json.str "abc123".data)) "x".data
          (FetchOutcome.reject "Network error".data) chatNew).state.sessionInfo
        = chatNew.sessionInfo ∧
      (continueWorkflow 0 Phase.initial (some (Json.str "abc123".data)) "x".data
          (FetchOutcome.reject "Network error".data) chatNew).state.actionMode
        = chatNew.actionMode ∧
      (continueWorkflow 0 Phase.initial (some (Json.str "abc123".data)) "x".data
          (FetchOutcome.reject "Network error".data) chatNew).state.workflowPhase
        = chatNew.workflowPhase ∧
      (continueWorkflow 0 Phase.initial (some (Json.str "abc123".data)) "x".data
          (FetchOutcome.reject "Network error".data) chatNew).pends = [] ∧
      (continueWorkflow 0 Phase.initial (some (Json.str "abc123".data)) "x".data
          (FetchOutcome.reject "Network error".data) chatNew).calls
        = [Call.cont (some (Json.str "abc123".data)) "x".data] :=
  continue_transport_failure_atomic 0 Phase.initial (some (Json.str "abc123".data)) "x".data
    (FetchOutcome.reject "Network error".data) chatNew rfl

/-- C9: while a prior call is still loading, or when the input is empty or
whitespace-only, submitting is a complete no-op: no remote call is issued,
nothing is scheduled, and the state (timeline, session info, action mode,
phase) is returned unchanged. -/
theorem submit_guard_noop (now : Int) (o : FetchOutcome) (s0 : ChatState)
    (h : (trimL s0.inputMessage).isEmpty = true ∨ s0.isLoading = true) :
    handleSendMessage now o s0 = { state := s0, pends := [], calls := [] } := by
  have hb : ((trimL s0.inputMessage).isEmpty || s0.isLoading) = true := by
    rcases h with h | h <;> simp [h]
  simp [handleSendMessage, hb]

/-- C9 (witness): whitespace-only input is rejected without any effect. -/
theorem submit_guard_noop_witness :
    handleSendMessage 0 o4c s9c = { state := s9c, pends := [], calls := [] } :=
  submit_guard_noop 0 o4c s9c (Or.inl (by decide))

/-! Helper lemmas about hydration. -/

theorem histMsgs_length (clock : Nat → Int) (total : Nat) :
    ∀ (log : List HistRec) (j : Nat), (histMsgs clock total j log).length = log.length := by
  intro log
  induction log with
  | nil => intro j; rfl
  | cons r rest ih => intro j; simp [histMsgs, ih]

theorem histMsgs_get? (clock : Nat → Int) (total : Nat) :
    ∀ (log : List HistRec) (j i : Nat),
      (histMsgs clock total j log).get? i = (log.get? i).map (fun r =>
        { role := Role.assistant
          content := Json.str r.message
          timestamp := clock (j + i) - ((total : Int) - ((j + i : Nat) : Int)) * 60000
          step := r.step
          type := "response".data }) := by
  intro log
  induction log with
  | nil => intro j i; simp [histMsgs]
  | cons r rest ih =>
    intro j i
    cases i with
    | zero => simp [histMsgs]
    | succ n =>
      have harith : (j + 1) + n = j + (n + 1) := by omega
      simp only [histMsgs, List.get?_cons_succ, ih (j + 1) n, harith]

theorem histMsgs_mem (clock : Nat → Int) (total : Nat) :
    ∀ (log : List HistRec) (j : Nat) (m : Message), m ∈ histMsgs clock total j log →
      m.role = Role.assistant ∧ m.type = "response".data := by
  intro log
  induction log with
  | nil => intro j m hm; simp [histMsgs] at hm
  | cons r rest ih =>
    intro j m hm
    rcases List.mem_cons.mp hm with he | ht
    · subst he; exact ⟨rfl, rfl⟩
    · exact ih (j + 1) m ht

/-- C8: hydration produces one assistant-role, response-category entry per
persisted record, and — for any clock that does not run backwards between
the per-record `Date.now()` calls — the synthesized timestamps are strictly
increasing in list order and each is strictly earlier than the clock value
at its own synthesis (hence earlier than every later reading of the
clock). -/
theorem hydration_timestamps_ordered (clock : Nat → Int) (log : List HistRec)
    (hmono : ∀ a b : Nat, a ≤ b → clock a ≤ clock b) :
    (loadHistMsgs clock log).length = log.length ∧
    (∀ m ∈ loadHistMsgs clock log, m.role = Role.assistant ∧ m.type = "response".data) ∧
    (∀ i j : Nat, ∀ mi mj : Message, i < j →
      (loadHistMsgs clock log).get? i = some mi →
      (loadHistMsgs clock log).get? j = some mj →
      mi.timestamp < mj.timestamp) ∧
    (∀ i : Nat, ∀ mi : Message,
      (loadHistMsgs clock log).get? i = some mi → mi.timestamp < clock i) := by
  refine ⟨histMsgs_length clock log.length log 0,
    fun m hm => histMsgs_mem clock log.length log 0 m hm, ?_, ?_⟩
  · intro i j mi mj hij hi hj
    rw [loadHistMsgs, histMsgs_get?] at hi hj
    rcases Option.map_eq_some'.mp hi with ⟨ri, hri, hmi⟩
    rcases Option.map_eq_some'.mp hj with ⟨rj, hrj, hmj⟩
    have hts : mi.timestamp = clock i - ((log.length : Int) - (i : Int)) * 60000 := by
      rw [← hmi]; simp
    have hts2 : mj.timestamp = clock j - ((log.length : Int) - (j : Int)) * 60000 := by
      rw [← hmj]; simp
    have hcl : clock i ≤ clock j := hmono i j (Nat.le_of_lt hij)
    have hij2 : (i : Int) < (j : Int) := by exact_mod_cast hij
    rw [hts, hts2]
    nlinarith [hij2, hcl]
  · intro i mi hi
    rw [loadHistMsgs, histMsgs_get?] at hi
    rcases Option.map_eq_some'.mp hi with ⟨ri, hri, hmi⟩
    have hlt : i < log.length := by
      rcases List.get?_eq_some.mp hri with ⟨hw, _⟩
      exact hw
    have hts : mi.timestamp = clock i - ((log.length : Int) - (i : Int)) * 60000 := by
      rw [← hmi]; simp
    have hlt2 : (i : Int) < (log.length : Int) := by exact_mod_cast hlt
    rw [hts]
    nlinarith [hlt2]

/-- C8 (witness): a two-record history hydrated with a constant clock. -/
theorem hydration_timestamps_ordered_witness :
    (loadHistMsgs (fun _ => 0) histC2).length = histC2.length ∧
    (∀ m ∈ loadHistMsgs (fun _ => 0) histC2,
      m.role = Role.assistant ∧ m.type = "response".data) ∧
    (∀ i j : Nat, ∀ mi mj : Message, i < j →
      (loadHistMsgs (fun _ => 0) histC2).get? i = some mi →
      (loadHistMsgs (fun _ => 0) histC2).get? j = some mj →
      mi.timestamp < mj.timestamp) ∧
    (∀ i : Nat, ∀ mi : Message,
      (loadHistMsgs (fun _ => 0) histC2).get? i = some mi →
        mi.timestamp < (fun _ => (0 : Int)) i) :=
  hydration_timestamps_ordered (fun _ => 0) histC2 (fun _ _ _ => le_refl 0)

theorem histMsgs_getLast? (clock : Nat → Int) (total : Nat) :
    ∀ (log : List HistRec) (j : Nat) (r : HistRec), log.getLast? = some r →
      ∃ k : Nat, (histMsgs clock total j log).getLast? = some
        { role := Role.assistant
          content := Json.str r.message
          timestamp := clock k - ((total : Int) - (k : Int)) * 60000
          step := r.step
          type := "response".data } := by
  intro log
  induction log with
  | nil => intro j r h; simp at h
  | cons a rest ih =>
    intro j r h
    cases rest with
    | nil =>
      have ha : a = r := by simpa using h
      subst ha
      exact ⟨j, rfl⟩
    | cons b rest2 =>
      have h2 : (b :: rest2).getLast? = some r := by
        simpa [List.getLast?_cons_cons] using h
      rcases ih (j + 1) r h2 with ⟨k, hk⟩
      refine ⟨k, ?_⟩
      have hcons : histMsgs clock total (j + 1) (b :: rest2) =
          { role := Role.assistant
            content := Json.str b.message
            timestamp := clock (j + 1) - ((total : Int) - ((j + 1 : Nat) : Int)) * 60000
            step := b.step
            type := "response".data } :: histMsgs clock total (j + 2) rest2 := rfl
      rw [show histMsgs clock total j (a :: b :: rest2) =
          { role := Role.assistant
            content := Json.str a.message
            timestamp := clock j - ((total : Int) - (j : Int)) * 60000
            step := a.step
            type := "response".data } :: histMsgs clock total (j + 1) (b :: rest2) from rfl]
      rw [hcons, List.getLast?_cons_cons, ← hcons]
      exact hk

/-- C10: resuming a session with a non-empty history from phase `initial`
sets the phase to `awaiting_supplier` IF AND ONLY IF the last hydrated
message's content contains, case-insensitively, one of the substrings
`supplier`, `quote`, `negotiat`; otherwise it stays `initial`.  The phase
is inferred from message keywords only, never from a server-reported
workflow state. -/
theorem resume_phase_keyword_iff (clock : Nat → Int) (sid : List Char)
    (st : WorkflowStateResp) (log : List HistRec) (r : HistRec) (s : ChatState)
    (hphase : s.workflowPhase = Phase.initial) (hlast : log.getLast? = some r) :
    ((loadSessionHistory clock sid log st s).1.workflowPhase = Phase.awaitingSupplier
      ↔ (containsSub (lowerL r.message) "supplier".data = true ∨
         containsSub (lowerL r.message) "quote".data = true ∨
         containsSub (lowerL r.message) "negotiat".data = true)) := by
  have hne : log ≠ [] := by intro e; rw [e] at hlast; simp at hlast
  have hlen : 0 < log.length := List.length_pos.mpr hne
  rcases histMsgs_getLast? clock log.length log 0 r hlast with ⟨k, hk⟩
  simp only [loadSessionHistory, loadHistMsgs, hlen, if_true, hk]
  by_cases hcond : keywordHit r.message = true
  · have hdisj : containsSub (lowerL r.message) "supplier".data = true ∨
        containsSub (lowerL r.message) "quote".data = true ∨
        containsSub (lowerL r.message) "negotiat".data = true := by
      have hx := hcond
      simp only [keywordHit, Bool.or_eq_true] at hx
      tauto
    simp [lastContentHit, hcond, hdisj]
  · have hdisj : ¬(containsSub (lowerL r.message) "supplier".data = true ∨
        containsSub (lowerL r.message) "quote".data = true ∨
        containsSub (lowerL r.message) "negotiat".data = true) := by
      intro hd
      exact hcond (by
        rcases hd with h | h | h <;> simp [keywordHit, h])
    rw [Bool.not_eq_true] at hcond
    simp [lastContentHit, hcond, hdisj, hphase]

/-- C10 (witness): a history ending in a message containing `quote` flips
the phase, as the keyword condition is satisfied. -/
theorem resume_phase_keyword_iff_witness :
    ((loadSessionHistory (fun _ => 0) "abc123".data histQ stC chatNew).1.workflowPhase
        = Phase.awaitingSupplier
      ↔ (containsSub (lowerL rQ.message) "supplier".data = true ∨
         containsSub (lowerL rQ.message) "quote".data = true ∨
         containsSub (lowerL rQ.message) "negotiat".data = true)) :=
  resume_phase_keyword_iff (fun _ => 0) "abc123".data stC histQ rQ chatNew rfl rfl

/-- C7 (witness): the amended characterisation instantiated at a concrete
padded completion-marker line. -/
theorem done_marker_startsWith_iff_witness :
    lineEvent "  event: done  ".data = some WireEvent.done ↔
      isPre doneLit (trimL "  event: done  ".data) = true :=
  done_marker_startsWith_iff "  event: done  ".data
